import Mathlib

/-!
Verification of the level-3 dispatch layer, the trsm control-tree
construction, and the structured packing kernel of the BLIS-style
linear-algebra engine.

The embedding follows the source files:
  frame/3/bli_l3_oapi_ex.c        (dispatchers, trivial short-circuits,
                                   rank-k/rank-2k composition, setid)
  frame/3/trsm/bli_trsm_cntl.c    (left/right trsm control trees)
  frame/1m/packm/bli_packm_struc_cxk.c  (structured panel packer)

Machine datatypes are modelled exactly: complex numbers are pairs of
integers (exact arithmetic; the claims under study are control-flow and
bit-exactness properties, not rounding properties).  Back-end routines
that are not part of the provided sources (the macro-kernels, bli_scalm,
bli_setid, the packm_cxk micro-kernels) are modelled from the spec; each
such definition carries a doc comment starting with "Modelled from the
spec:" naming what is missing.
-/

namespace BlisSpec

/-- A complex scalar over exact integers: the element type of the model.
The four machine datatypes of the engine collapse to this one exact type,
since the claims under study are about control flow and bit-exact
equalities, not floating-point rounding.  A real value is one with
`im = 0`. -/
@[ext]
structure Cx where
  re : Int
  im : Int
deriving DecidableEq

instance : Zero Cx := ⟨⟨0, 0⟩⟩
instance : One Cx := ⟨⟨1, 0⟩⟩
instance : Add Cx := ⟨fun x y => ⟨x.re + y.re, x.im + y.im⟩⟩
instance : Mul Cx := ⟨fun x y => ⟨x.re * y.re - x.im * y.im, x.re * y.im + x.im * y.re⟩⟩

/-- Complex conjugation. -/
def Cx.conj (x : Cx) : Cx := ⟨x.re, -x.im⟩

/-- Conjugate if the flag is set (the engine's conjugation bit applied to a
scalar read). -/
def cnjIf (b : Bool) (x : Cx) : Cx := if b then x.conj else x

/-- Storage triangle tag of a descriptor: `BLIS_DENSE`, `BLIS_LOWER`,
`BLIS_UPPER`. -/
inductive Uplo where
  | dense
  | lower
  | upper
deriving DecidableEq

/-- `bli_toggle_uplo`: lower and upper swap; dense is unaffected. -/
def toggleUplo : Uplo → Uplo
  | Uplo.dense => Uplo.dense
  | Uplo.lower => Uplo.upper
  | Uplo.upper => Uplo.lower

/-- Whether the position `(i, j)` (diagonal offset 0) is inside the stored
region declared by the uplo tag. -/
def storedAt (u : Uplo) (i j : Nat) : Bool :=
  match u with
  | Uplo.dense => true
  | Uplo.lower => decide (j ≤ i)
  | Uplo.upper => decide (i ≤ j)

/-- Structure tag of a matrix: general, triangular, symmetric, hermitian. -/
inductive Struc where
  | general
  | triangular
  | symmetric
  | hermitian
deriving DecidableEq

/-- `side_t`: whether the structured operand multiplies from the left or the
right. -/
inductive Side where
  | left
  | right
deriving DecidableEq

/-- The matrix descriptor (`obj_t`), restricted to the fields the claims
exercise: stored dimensions, storage triangle, unit-diagonal tag, the
logical transposition and conjugation bits, the carried (attached) scalar,
and the element view.  `elem i j` is the stored element at row `i`,
column `j`; strides are abstracted into this view.  Diagonal offsets of
dispatch-level operands are zero and are not modelled. -/
structure Obj where
  m : Nat
  n : Nat
  uplo : Uplo
  diagu : Bool
  trans : Bool
  conj : Bool
  scalar : Cx
  elem : Nat → Nat → Cx

/-- Length of the operand after applying its transposition bit. -/
def Obj.ilen (o : Obj) : Nat := if o.trans then o.n else o.m

/-- Width of the operand after applying its transposition bit. -/
def Obj.iwid (o : Obj) : Nat := if o.trans then o.m else o.n

/-- The element the operand denotes at `(i, j)` once its transposition and
conjugation bits are applied (the "logical" matrix the back-end computes
with). -/
def interpElem (o : Obj) (i j : Nat) : Cx :=
  cnjIf o.conj (if o.trans then o.elem j i else o.elem i j)

/-- `bli_obj_has_zero_dim`: either stored dimension is zero. -/
def bli_obj_has_zero_dim (o : Obj) : Bool := o.m == 0 || o.n == 0

/-- `bli_obj_toggle_trans`: flip the transposition bit (data untouched). -/
def bli_obj_toggle_trans (o : Obj) : Obj := { o with trans := !o.trans }

/-- `bli_obj_toggle_conj`: flip the conjugation bit (data untouched). -/
def bli_obj_toggle_conj (o : Obj) : Obj := { o with conj := !o.conj }

/-- Modelled from the spec (§4.1 step 8, §3): `bli_obj_induce_trans`
(header inline, not under the provided sources) rewrites the access
pattern of the object — dimensions, strides and offsets are swapped and
the storage triangle is toggled — without touching the data or the
transposition bit. -/
def bli_obj_induce_trans (o : Obj) : Obj :=
  { o with
    m := o.n
    n := o.m
    uplo := toggleUplo o.uplo
    elem := fun i j => o.elem j i }

/-- `bli_obj_set_onlytrans( BLIS_NO_TRANSPOSE, _ )`: clear the
transposition bit, leaving the conjugation bit alone. -/
def bli_obj_set_onlytrans_no (o : Obj) : Obj := { o with trans := false }

/-- Modelled from the spec (§4.1 step 10): `bli_obj_scalar_attach` (not
under the provided sources) scales the given scalar into the object's
carried scalar; the typecast to the target datatype is elided in this
single-datatype model. -/
def bli_obj_scalar_attach (s : Cx) (o : Obj) : Obj := { o with scalar := s * o.scalar }

/-- Sum of `f 0 + f 1 + ... + f (n-1)`, the inner-product accumulation of
the back-end. -/
def sumTo : Nat → (Nat → Cx) → Cx
  | 0, _ => 0
  | n + 1, f => sumTo n f + f n

/-- Modelled from the spec (§7, §8): `bli_scalm` (not under the provided
sources) scales the stored region of `C` by `beta`: every element of C's
referenced region — the whole matrix when C is dense, the declared
triangle when C carries one (as gemmt's C does) — is multiplied by
`beta`; unstored elements are untouched.  The restriction to the stored
region is forced by the spec's unconditional invariant that gemmt leaves
the off-triangle of C bit-identical (§8), which applies on the trivial
path as well. -/
def bli_scalm (beta : Cx) (c : Obj) : Obj :=
  { c with elem := fun i j =>
      if i < c.m ∧ j < c.n ∧ storedAt c.uplo i j then beta * c.elem i j
      else c.elem i j }

/-- `bli_l3_return_early_if_trivial` (frame/3/bli_l3_oapi_ex.c, lines
41-65): if C has a zero dimension, return early with C untouched
(`some c`); if alpha is zero or A or B has a zero dimension, scale C by
beta and return early; otherwise report `BLIS_FAILURE` (`none`) and let
the caller proceed with the full operation. -/
def bli_l3_return_early_if_trivial (alpha : Cx) (a b : Obj) (beta : Cx) (c : Obj) :
    Option Obj :=
  if bli_obj_has_zero_dim c then some c
  else if alpha = 0 ∨ bli_obj_has_zero_dim a ∨ bli_obj_has_zero_dim b then
    some (bli_scalm beta c)
  else none

/-- Modelled from the spec (§6): the gemm back-end (thread decorator,
control tree and macro-kernel, not under the provided sources) computes
`C ← alpha*op(A)*op(B) + beta*C` on the in-range entries of C.  The
small/unpacked handler and the mixed-datatype stage compute the same
operation when they engage. -/
def gemm_core (alpha : Cx) (a b : Obj) (beta : Cx) (c : Obj) : Obj :=
  { c with elem := fun i j =>
      if i < c.m ∧ j < c.n then
        alpha * sumTo a.iwid (fun k => interpElem a i k * interpElem b k j)
          + beta * c.elem i j
      else c.elem i j }

/-- Modelled from the spec (§4.4, §6): the gemmt back-end computes
`C ← alpha*op(A)*op(B) + beta*C` on the stored triangle of C only; the
macro-kernel computes in place, masked-stores, or skips each micro-tile
according to its position relative to the declared triangle, so entries
outside the stored triangle are never written. -/
def gemmt_core (alpha : Cx) (a b : Obj) (beta : Cx) (c : Obj) : Obj :=
  { c with elem := fun i j =>
      if i < c.m ∧ j < c.n ∧ storedAt c.uplo i j then
        alpha * sumTo a.iwid (fun k => interpElem a i k * interpElem b k j)
          + beta * c.elem i j
      else c.elem i j }

/-- The element of a Hermitian operand at `(k, l)`: the stored element, or
the conjugate of its mirror when `(k, l)` is unstored. -/
def hermElem (a : Obj) (k l : Nat) : Cx :=
  if storedAt a.uplo k l then interpElem a k l else Cx.conj (interpElem a l k)

/-- The element of a symmetric operand at `(k, l)`: the stored element, or
its mirror when `(k, l)` is unstored. -/
def symElem (a : Obj) (k l : Nat) : Cx :=
  if storedAt a.uplo k l then interpElem a k l else interpElem a l k

/-- The element of a triangular operand at `(k, l)`: zero off the stored
triangle, one on a unit diagonal. -/
def triElem (a : Obj) (k l : Nat) : Cx :=
  if storedAt a.uplo k l then
    (if a.diagu ∧ k = l then 1 else interpElem a k l)
  else 0

/-- Modelled from the spec (§6): the hemm back-end computes
`C ← alpha*herm(A)*B + beta*C` (left) or `C ← alpha*B*herm(A) + beta*C`
(right). -/
def hemm_core (side : Side) (alpha : Cx) (a b : Obj) (beta : Cx) (c : Obj) : Obj :=
  { c with elem := fun i j =>
      if i < c.m ∧ j < c.n then
        (match side with
         | Side.left => alpha * sumTo a.ilen (fun k => hermElem a i k * interpElem b k j)
         | Side.right => alpha * sumTo a.ilen (fun k => interpElem b i k * hermElem a k j))
          + beta * c.elem i j
      else c.elem i j }

/-- Modelled from the spec (§6): the symm back-end computes
`C ← alpha*sym(A)*B + beta*C` (left) or `C ← alpha*B*sym(A) + beta*C`
(right). -/
def symm_core (side : Side) (alpha : Cx) (a b : Obj) (beta : Cx) (c : Obj) : Obj :=
  { c with elem := fun i j =>
      if i < c.m ∧ j < c.n then
        (match side with
         | Side.left => alpha * sumTo a.ilen (fun k => symElem a i k * interpElem b k j)
         | Side.right => alpha * sumTo a.ilen (fun k => interpElem b i k * symElem a k j))
          + beta * c.elem i j
      else c.elem i j }

/-- Modelled from the spec (§6): the trmm3 back-end computes
`C ← alpha*tri(A)*B + beta*C` (left) or `C ← alpha*B*tri(A) + beta*C`
(right). -/
def trmm3_core (side : Side) (alpha : Cx) (a b : Obj) (beta : Cx) (c : Obj) : Obj :=
  { c with elem := fun i j =>
      if i < c.m ∧ j < c.n then
        (match side with
         | Side.left => alpha * sumTo a.ilen (fun k => triElem a i k * interpElem b k j)
         | Side.right => alpha * sumTo a.ilen (fun k => interpElem b i k * triElem a k j))
          + beta * c.elem i j
      else c.elem i j }

/-- Modelled from the spec (§6): the trmm back-end overwrites B with
`alpha*tri(A)*B` (left) or `alpha*B*tri(A)` (right). -/
def trmm_core (side : Side) (alpha : Cx) (a b : Obj) : Obj :=
  { b with elem := fun i j =>
      if i < b.m ∧ j < b.n then
        match side with
        | Side.left => alpha * sumTo a.ilen (fun k => triElem a i k * interpElem b k j)
        | Side.right => alpha * sumTo a.ilen (fun k => interpElem b i k * triElem a k j)
      else b.elem i j }

/-- `bli_gemm_ex` (frame/3/bli_l3_oapi_ex.c): trivial short-circuit, then
the full operation via the back-end. -/
def gemm_ex (alpha : Cx) (a b : Obj) (beta : Cx) (c : Obj) : Obj :=
  match bli_l3_return_early_if_trivial alpha a b beta c with
  | some cr => cr
  | none => gemm_core alpha a b beta c

/-- `bli_gemmt_ex` (frame/3/bli_l3_oapi_ex.c, lines 365-487): trivial
short-circuit, then the full triangle-restricted operation via the
back-end. -/
def gemmt_ex (alpha : Cx) (a b : Obj) (beta : Cx) (c : Obj) : Obj :=
  match bli_l3_return_early_if_trivial alpha a b beta c with
  | some cr => cr
  | none => gemmt_core alpha a b beta c

/-- `bli_hemm_ex` (frame/3/bli_l3_oapi_ex.c): trivial short-circuit, then
the full operation. -/
def hemm_ex (side : Side) (alpha : Cx) (a b : Obj) (beta : Cx) (c : Obj) : Obj :=
  match bli_l3_return_early_if_trivial alpha a b beta c with
  | some cr => cr
  | none => hemm_core side alpha a b beta c

/-- `bli_symm_ex` (frame/3/bli_l3_oapi_ex.c): trivial short-circuit, then
the full operation. -/
def symm_ex (side : Side) (alpha : Cx) (a b : Obj) (beta : Cx) (c : Obj) : Obj :=
  match bli_l3_return_early_if_trivial alpha a b beta c with
  | some cr => cr
  | none => symm_core side alpha a b beta c

/-- `bli_trmm3_ex` (frame/3/bli_l3_oapi_ex.c, lines 913-1094): trivial
short-circuit, then the full operation. -/
def trmm3_ex (side : Side) (alpha : Cx) (a b : Obj) (beta : Cx) (c : Obj) : Obj :=
  match bli_l3_return_early_if_trivial alpha a b beta c with
  | some cr => cr
  | none => trmm3_core side alpha a b beta c

/-- `bli_trmm_ex` (frame/3/bli_l3_oapi_ex.c, lines 1154-1341): the trivial
check is invoked with `&BLIS_ZERO` as beta and B playing the role of C
(line 1172), then the full operation overwrites B. -/
def trmm_ex (side : Side) (alpha : Cx) (a b : Obj) : Obj :=
  match bli_l3_return_early_if_trivial alpha a b 0 b with
  | some br => br
  | none => trmm_core side alpha a b

/-- `bli_trsm_ex` (frame/3/bli_l3_oapi_ex.c, lines 1344-1505): the trivial
check is invoked with `&BLIS_ZERO` as beta and B playing the role of C
(line 1362).  The triangular-solve back-end requires division and is
outside the exact-integer model, so it is abstracted as the `core`
parameter; the claims under study concern only the dispatcher's trivial
path, which is modelled exactly. -/
def trsm_ex (core : Side → Cx → Obj → Obj → Obj) (side : Side) (alpha : Cx)
    (a b : Obj) : Obj :=
  match bli_l3_return_early_if_trivial alpha a b 0 b with
  | some br => br
  | none => core side alpha a b

/-- Modelled from the spec (§4.1, comments at lines 520-531 and 1120-1126
of frame/3/bli_l3_oapi_ex.c): `bli_setid` (not under the provided
sources) sets the imaginary component of every diagonal element of the
matrix to the (real part of the) given scalar. -/
def bli_setid (s : Cx) (c : Obj) : Obj :=
  { c with elem := fun i j =>
      if i = j ∧ i < c.m ∧ j < c.n then ⟨(c.elem i j).re, s.re⟩
      else c.elem i j }

/-- `bli_her2k_ex` (frame/3/bli_l3_oapi_ex.c, lines 490-532): alias and
conjugate alpha, alias A and B with transposition and conjugation
toggled, invoke gemmt twice (beta only the first time), then explicitly
zero the imaginary parts of the diagonal of C. -/
def her2k_ex (alpha : Cx) (a b : Obj) (beta : Cx) (c : Obj) : Obj :=
  let alphah := Cx.conj alpha
  let ah := bli_obj_toggle_conj (bli_obj_toggle_trans a)
  let bh := bli_obj_toggle_conj (bli_obj_toggle_trans b)
  bli_setid 0 (gemmt_ex alphah b ah 1 (gemmt_ex alpha a bh beta c))

/-- `bli_syr2k_ex` (frame/3/bli_l3_oapi_ex.c, lines 535-563): alias A and
B with transposition toggled and invoke gemmt twice, beta only the first
time. -/
def syr2k_ex (alpha : Cx) (a b : Obj) (beta : Cx) (c : Obj) : Obj :=
  let at_ := bli_obj_toggle_trans a
  let bt := bli_obj_toggle_trans b
  gemmt_ex alpha b at_ 1 (gemmt_ex alpha a bt beta c)

/-- `bli_herk_ex` (frame/3/bli_l3_oapi_ex.c, lines 1097-1127): one gemmt
call against the conjugate-transposed alias of A, then explicitly zero
the imaginary parts of the diagonal of C. -/
def herk_ex (alpha : Cx) (a : Obj) (beta : Cx) (c : Obj) : Obj :=
  let ah := bli_obj_toggle_conj (bli_obj_toggle_trans a)
  bli_setid 0 (gemmt_ex alpha a ah beta c)

/-- `bli_syrk_ex` (frame/3/bli_l3_oapi_ex.c, lines 1130-1151): one gemmt
call against the transposed alias of A. -/
def syrk_ex (alpha : Cx) (a : Obj) (beta : Cx) (c : Obj) : Obj :=
  let at_ := bli_obj_toggle_trans a
  gemmt_ex alpha a at_ beta c

/-- The mathematical conjugate-transpose of the matrix an operand denotes,
packaged as a flag-free operand.  This is the spec-side reading of the
`B^H` and `A^H` arguments in the composition claim; it is compared with
the source's flag-toggling aliases. -/
def ctransObj (o : Obj) : Obj :=
  { m := o.iwid
    n := o.ilen
    uplo := toggleUplo o.uplo
    diagu := o.diagu
    trans := false
    conj := false
    scalar := o.scalar
    elem := fun i j => Cx.conj (interpElem o j i) }

/-- The mathematical transpose of the matrix an operand denotes, packaged
as a flag-free operand (the spec-side reading of `B^T` and `A^T`). -/
def transObj (o : Obj) : Obj :=
  { m := o.iwid
    n := o.ilen
    uplo := toggleUplo o.uplo
    diagu := o.diagu
    trans := false
    conj := false
    scalar := o.scalar
    elem := fun i j => interpElem o j i }

/-- The composition of gemmt calls that the claim asserts her2k to be:
`gemmt(alpha, A, B^H, beta, C)` then `gemmt(conj(alpha), B, A^H, 1, C)`,
with no further step. -/
def her2k_via_gemmt (alpha : Cx) (a b : Obj) (beta : Cx) (c : Obj) : Obj :=
  gemmt_ex (Cx.conj alpha) b (ctransObj a) 1 (gemmt_ex alpha a (ctransObj b) beta c)

/-- The composition of gemmt calls that the claim asserts syr2k to be:
`gemmt(alpha, A, B^T, beta, C)` then `gemmt(alpha, B, A^T, 1, C)`. -/
def syr2k_via_gemmt (alpha : Cx) (a b : Obj) (beta : Cx) (c : Obj) : Obj :=
  gemmt_ex alpha b (transObj a) 1 (gemmt_ex alpha a (transObj b) beta c)

/-- The single gemmt call that the claim asserts herk to be:
`gemmt(alpha, A, A^H, beta, C)`. -/
def herk_via_gemmt (alpha : Cx) (a : Obj) (beta : Cx) (c : Obj) : Obj :=
  gemmt_ex alpha a (ctransObj a) beta c

/-- The single gemmt call that the claim asserts syrk to be:
`gemmt(alpha, A, A^T, beta, C)`. -/
def syrk_via_gemmt (alpha : Cx) (a : Obj) (beta : Cx) (c : Obj) : Obj :=
  gemmt_ex alpha a (transObj a) beta c

/-- The state of the gemm dispatcher after its scalar-attachment step: the
three local operands and the alpha and beta values passed onward to the
internal back-end. -/
structure GemmScalarStage where
  a : Obj
  b : Obj
  c : Obj
  alpha : Cx
  beta : Cx

/-- The scalar-attachment step of `bli_gemm_ex` (frame/3/bli_l3_oapi_ex.c,
lines 189-205), applied to the already-aliased local operands: alpha is
attached to B, beta is attached to C, and the alpha and beta pointers are
changed to `BLIS_ONE`.  A's carried scalar is not touched. -/
def gemm_attach_scalars (alpha beta : Cx) (a b c : Obj) : GemmScalarStage :=
  { a := a
    b := bli_obj_scalar_attach alpha b
    c := bli_obj_scalar_attach beta c
    alpha := 1
    beta := 1 }

/-- The A-normalization step of `bli_trmm_ex` (frame/3/bli_l3_oapi_ex.c,
lines 1220-1224): if the local alias of A carries a transposition flag,
induce the transposition and clear the flag. -/
def trmm_a_local (a : Obj) : Obj :=
  if a.trans then bli_obj_set_onlytrans_no (bli_obj_induce_trans a) else a

/-- The A-normalization step of `bli_trmm3_ex` (frame/3/bli_l3_oapi_ex.c,
lines 982-986): if the local alias of A carries a transposition flag,
induce the transposition and clear the flag. -/
def trmm3_a_local (a : Obj) : Obj :=
  if a.trans then bli_obj_set_onlytrans_no (bli_obj_induce_trans a) else a

/-- The A-normalization step of `bli_trsm_ex` (frame/3/bli_l3_oapi_ex.c,
lines 1417-1421): if the local alias of A carries a transposition flag,
induce the transposition and clear the flag. -/
def trsm_a_local (a : Obj) : Obj :=
  if a.trans then bli_obj_set_onlytrans_no (bli_obj_induce_trans a) else a

/-- Partitioning direction of a control-tree partition node: `BLIS_FWD` or
`BLIS_BWD`. -/
inductive Dir where
  | fwd
  | bwd
deriving DecidableEq

/-- A partition node of the control tree (`bli_part_cntl_init_node`):
algorithmic blocksize, maximum blocksize, blocksize multiple, partition
direction and the weighted-partitioning flag.  Variant function pointers
and threading masks are not modelled. -/
structure PartNode where
  alg : Nat
  mx : Nat
  mult : Nat
  direct : Dir
  weighted : Bool
deriving DecidableEq

/-- A packing node of the control tree (`bli_packm_def_cntl_init_node`),
restricted to the boolean policy fields: invert-diagonal,
reverse-iteration-if-upper and reverse-iteration-if-lower.  Datatypes,
blocksize ids, schema and buffer class are not needed by the claims. -/
structure PackNodeCfg where
  invdiag : Bool
  revifup : Bool
  reviflo : Bool
deriving DecidableEq

/-- The trsm control tree (`trsm_cntl_t`): the gemm-branch nodes are only
initialized by the left-side construction, hence optional. -/
structure TrsmCntl where
  part_ir_gemm : Option PartNode
  part_jr_gemm : Option PartNode
  pack_a_gemm : Option PackNodeCfg
  part_ir_trsm : PartNode
  part_jr_trsm : PartNode
  pack_a_trsm : PackNodeCfg
  part_ic : PartNode
  pack_b : PackNodeCfg
  part_pc : PartNode
  part_jc : PartNode

/-- The per-datatype blocksize table of the context, for the single
computation datatype of the model: default and maximum values for
MR, NR, MC, KC, NC. -/
structure Cntx where
  mr : Nat
  nr : Nat
  mc : Nat
  mc_max : Nat
  kc : Nat
  kc_max : Nat
  nc : Nat
  nc_max : Nat

/-- Modelled from the spec (§3): `bli_l3_adjust_kc` (not under the
provided sources) adjusts the KC blocksize pair for the operation; the
spec gives no formula for the adjustment, and it does not affect the
partition directions the claims concern, so it is modelled as the
identity. -/
def bli_l3_adjust_kc (pc : Nat × Nat) : Nat × Nat := pc

/-- `bli_trsm_l_cntl_init` (frame/3/trsm/bli_trsm_cntl.c, lines 56-297):
construction of the left-side trsm control tree.  `preinv` mirrors the
`BLIS_ENABLE_TRSM_PREINVERSION` compile-time flag.  The partition
direction is `BLIS_FWD` when A is lower triangular and `BLIS_BWD`
otherwise, and it is used for both the IC (m) and PC (k) nodes; the JC
node partitions forward. -/
def bli_trsm_l_cntl_init (preinv : Bool) (a b c : Obj) (cntx : Cntx) : TrsmCntl :=
  let _ := b
  let _ := c
  let direct := if a.uplo = Uplo.lower then Dir.fwd else Dir.bwd
  let ir_bsize := cntx.mr
  let jr_bsize := cntx.nr
  let ic_alg := cntx.mc
  let ic_max := cntx.mc_max
  let ic_mult := cntx.mr
  let pc := bli_l3_adjust_kc (cntx.kc, cntx.kc_max)
  let pc_mult := 1
  let jc_alg := cntx.nc
  let jc_max := cntx.nc_max
  let jc_mult := cntx.nr
  { part_ir_gemm := some ⟨ir_bsize, ir_bsize, ir_bsize, Dir.fwd, false⟩
    part_jr_gemm := some ⟨jr_bsize, jr_bsize, jr_bsize, Dir.fwd, false⟩
    pack_a_gemm := some ⟨false, true, false⟩
    part_ir_trsm := ⟨ir_bsize, ir_bsize, ir_bsize, Dir.fwd, false⟩
    part_jr_trsm := ⟨jr_bsize, jr_bsize, jr_bsize, Dir.fwd, false⟩
    pack_a_trsm := ⟨preinv, true, false⟩
    part_ic := ⟨ic_alg, ic_max, ic_mult, direct, false⟩
    pack_b := ⟨false, false, false⟩
    part_pc := ⟨pc.1, pc.2, pc_mult, direct, false⟩
    part_jc := ⟨jc_alg, jc_max, jc_mult, Dir.fwd, false⟩ }

/-- `bli_trsm_r_cntl_init` (frame/3/trsm/bli_trsm_cntl.c, lines 299-469):
construction of the right-side trsm control tree.  The partition
direction is `BLIS_BWD` when B is lower triangular and `BLIS_FWD`
otherwise, and it is used for the PC (k) and JC (n) nodes; the IC (m)
node partitions forward. -/
def bli_trsm_r_cntl_init (a b c : Obj) (cntx : Cntx) : TrsmCntl :=
  let _ := a
  let _ := c
  let direct := if b.uplo = Uplo.lower then Dir.bwd else Dir.fwd
  let ir_bsize := cntx.mr
  let jr_bsize := cntx.nr
  let ic_alg := cntx.mc
  let ic_max := cntx.mc_max
  let ic_mult := cntx.nr
  let pc := bli_l3_adjust_kc (cntx.kc, cntx.kc_max)
  let pc_mult := 1
  let jc_alg := cntx.nc
  let jc_max := cntx.nc_max
  let jc_mult := cntx.mr
  { part_ir_gemm := none
    part_jr_gemm := none
    pack_a_gemm := none
    part_ir_trsm := ⟨ir_bsize, ir_bsize, ir_bsize, Dir.fwd, false⟩
    part_jr_trsm := ⟨jr_bsize, jr_bsize, jr_bsize, Dir.fwd, false⟩
    pack_a_trsm := ⟨false, false, false⟩
    part_ic := ⟨ic_alg, ic_max, ic_mult, Dir.fwd, false⟩
    pack_b := ⟨true, false, true⟩
    part_pc := ⟨pc.1, pc.2, pc_mult, direct, false⟩
    part_jc := ⟨jc_alg, jc_max, jc_mult, direct, false⟩ }

/-- Error outcome of the structured packer: the
`BLIS_NOT_YET_IMPLEMENTED` code raised through `bli_check_error_code`. -/
inductive PackErr where
  | notYetImplemented
deriving DecidableEq

/-- A packed micro-panel buffer, indexed as `(r, l) ↦` the element at
offset `r + l * ldp` of the buffer: `r` runs along the short (register)
axis, `l` along the panel length.  The leading dimension is abstracted
into this two-index view; the 1m (real+imag interleaved) and
real-viewed-complex layouts write the same complex elements under a
different real-index scheme and are represented at this complex-element
granularity. -/
def Buf : Type := Nat → Nat → Cx

/-- A source panel view, `(r, l) ↦` the element `r` rows and `l` columns
(in units of `incc` and `ldc`) from the panel origin.  Indices are
integers because reflection can step outside the panel. -/
def SrcView : Type := Int → Int → Cx

/-- Overwrite the window of `rows` rows and `len` panel-length positions
starting at position `off` with the values of `g` (region-local
coordinates); everything else keeps the previous buffer content.  This is
the footprint of one packing sub-kernel invocation at `p + off * ldp`. -/
def overlay (rows off len : Nat) (g : Nat → Nat → Cx) (p : Buf) : Buf :=
  fun r l => if r < rows ∧ off ≤ l ∧ l < off + len then g r (l - off) else p r l

/-- Modelled from the spec (§4.3, general packing): the values written by
the `packm_cxk` micro-kernel over its `panel_dim_max × panel_len_max`
window: position `(r, l)` receives `kappa` times the (possibly
conjugated) source element for `r < panel_dim` and `l < panel_len`, and
an exact zero in the padding remainder of the window.  The broadcast
factor is one in this model. -/
def packm_cxk_vals (conjc : Bool) (panel_dim panel_len : Nat) (kappa : Cx)
    (c : SrcView) : Nat → Nat → Cx :=
  fun r l =>
    if r < panel_dim ∧ l < panel_len then kappa * cnjIf conjc (c r l) else 0

/-- Modelled from the spec (§4.3, structured packing): `bli_reflect_to_
stored_part` (header macro, not under the provided sources) remaps an
access to the unstored region to its stored mirror across the diagonal:
with the diagonal at offset `d` from the view's origin, the entry at
`(r, l)` of the reflected view is the entry at `(l - d, r + d)` of the
original view. -/
def reflect_to_stored_part (d : Int) (c : SrcView) : SrcView :=
  fun r l => c (l - d) (r + d)

/-- Shift a source view by `i` panel-length positions (the pointer
arithmetic `c + i * ldc`). -/
def shiftCols (i : Nat) (c : SrcView) : SrcView :=
  fun r l => c r (l + i)

/-- The parameters of one structured-packer invocation
(`packm_struc_cxk`).  `panel_dim_r` mirrors
`bli_packm_def_cntl_bmult_m_def( cntl )`, the register blocksize used as
the row extent of the explicit zero fills.  The pack schema is the
non-1m panel schema (the 1m variant writes the same complex elements
through an interleaved real view). -/
structure PackArgs where
  strucc : Struc
  diagu : Bool
  uploc : Uplo
  conjc : Bool
  invdiag : Bool
  panel_dim : Nat
  panel_len : Nat
  panel_dim_max : Nat
  panel_len_max : Nat
  panel_dim_off : Nat
  panel_len_off : Nat
  panel_dim_r : Nat
  kappa : Cx

/-- `diagoffc = panel_dim_off - panel_len_off`
(frame/1m/packm/bli_packm_struc_cxk.c, line 116): the signed offset of
the diagonal from the top-left of the sub-panel. -/
def diagoffc (A : PackArgs) : Int := (A.panel_dim_off : Int) - (A.panel_len_off : Int)

/-- The diagonal-intersection condition checked by the structured packer
(lines 117-118): the diagonal falls strictly inside the short
(`panel_dim`) edge of the micro-panel. -/
def diagIntersectsShortEdge (A : PackArgs) : Prop :=
  (-(A.panel_dim : Int) < diagoffc A ∧ diagoffc A < 0) ∨
  ((A.panel_len : Int) - (A.panel_dim : Int) < diagoffc A ∧ diagoffc A < (A.panel_len : Int))

instance (A : PackArgs) : Decidable (diagIntersectsShortEdge A) := by
  unfold diagIntersectsShortEdge; infer_instance

/-- `p10_len = bli_min( diagoffc, panel_len )` (line 127). -/
def p10_len (A : PackArgs) : Nat := min (diagoffc A).toNat A.panel_len

/-- `p10_len_max` (line 128): bumped to `panel_len_max` when p10 covers
the whole panel length. -/
def p10_len_max (A : PackArgs) : Nat :=
  if p10_len A = A.panel_len then A.panel_len_max else p10_len A

/-- The panel-length position where the p12 region starts:
`i = bli_max( 0, diagoffc + panel_dim )` (line 209). -/
def p12_i (A : PackArgs) : Nat := (max 0 (diagoffc A + (A.panel_dim : Int))).toNat

/-- `p12_len = panel_len - i` (line 210). -/
def p12_len (A : PackArgs) : Nat := A.panel_len - p12_i A

/-- `p12_len_max = p12_len + panel_len_pad` (line 213), where
`panel_len_pad = panel_len_max - panel_len` (line 68). -/
def p12_len_max (A : PackArgs) : Nat :=
  p12_len A + (A.panel_len_max - A.panel_len)

/-- Modelled from the spec (§4.3, p11): the values written by the `cxc`
diagonal packing micro-kernel over its `panel_dim_max × p11_len_max`
window: the `panel_dim × panel_dim` diagonal block receives the
structure's element-wise reflection (zero off a triangular operand's
stored triangle, the mirrored or conjugate-mirrored element for a
symmetric or Hermitian operand), scaled by `kappa`; the rest of the
window is zero padding.  Unit-diagonal and diagonal-inversion handling
are elided — no claim depends on the diagonal block's stored values. -/
def packm_cxc_diag_vals (A : PackArgs) (c : SrcView) : Nat → Nat → Cx :=
  fun r l =>
    if r < A.panel_dim ∧ l < A.panel_dim then
      A.kappa *
        (if storedAt A.uploc r l then cnjIf A.conjc (c r l)
         else
           match A.strucc with
           | Struc.triangular => 0
           | Struc.symmetric => cnjIf A.conjc (c l r)
           | Struc.hermitian => cnjIf (!A.conjc) (c l r)
           | Struc.general => cnjIf A.conjc (c r l))
    else 0

/-- `p11_len_max = panel_dim + panel_len_pad` when the diagonal block is
the last block, else `panel_dim` (lines 178-179). -/
def p11_len_max (A : PackArgs) : Nat :=
  A.panel_dim +
    (if diagoffc A + (A.panel_dim : Int) = (A.panel_len : Int) then
      A.panel_len_max - A.panel_len else 0)

/-- The conjugation flag used for the p10 region: toggled when the
upper-stored part of a Hermitian operand is reflected (lines 139-140). -/
def conjc10 (A : PackArgs) : Bool :=
  if A.uploc = Uplo.upper ∧ A.strucc = Struc.hermitian then !A.conjc else A.conjc

/-- The source view used for the p10 region: reflected to the stored part
when the operand is upper-stored (line 137). -/
def c10view (A : PackArgs) (c : SrcView) : SrcView :=
  if A.uploc = Uplo.upper then reflect_to_stored_part (diagoffc A) c else c

/-- The conjugation flag used for the p12 region: toggled when the
lower-stored part of a Hermitian operand is reflected (lines 224-225). -/
def conjc12 (A : PackArgs) : Bool :=
  if A.uploc = Uplo.lower ∧ A.strucc = Struc.hermitian then !A.conjc else A.conjc

/-- The source view used for the p12 region: shifted to the region start
and reflected to the stored part when the operand is lower-stored
(line 222). -/
def c12view (A : PackArgs) (c : SrcView) : SrcView :=
  if A.uploc = Uplo.lower then
    reflect_to_stored_part (diagoffc A - (p12_i A : Int)) (shiftCols (p12_i A) c)
  else shiftCols (p12_i A) c

/-- The p10 write of the structured packer (lines 124-172): the region
strictly before the diagonal block.  When the operand is upper-stored the
source is reflected to the stored part (with conjugation toggled for a
Hermitian operand); when the operand is upper triangular the region is
explicitly zero-filled instead of read. -/
def packm_struc_p10 (A : PackArgs) (c : SrcView) (p : Buf) : Buf :=
  if 0 < diagoffc A then
    if A.uploc = Uplo.upper ∧ A.strucc = Struc.triangular then
      overlay A.panel_dim_r 0 (p10_len_max A) (fun _ _ => 0) p
    else
      overlay A.panel_dim_max 0 (p10_len_max A)
        (packm_cxk_vals (conjc10 A) A.panel_dim (p10_len A) A.kappa (c10view A c)) p
  else p

/-- The p11 write of the structured packer (lines 174-204): the
diagonal-intersecting `panel_dim × panel_dim` block at position
`i = diagoffc`, padded on the far edge when it is the last block,
dispatched to the diagonal micro-kernel. -/
def packm_struc_p11 (A : PackArgs) (c : SrcView) (p : Buf) : Buf :=
  if 0 ≤ diagoffc A ∧ diagoffc A + (A.panel_dim : Int) ≤ (A.panel_len : Int) then
    overlay A.panel_dim_max (diagoffc A).toNat (p11_len_max A)
      (packm_cxc_diag_vals A (shiftCols (diagoffc A).toNat c)) p
  else p

/-- The p12 write of the structured packer (lines 206-257): the region
strictly after the diagonal block, always the final region, padded with
zeros to `panel_len_max`.  When the operand is lower-stored the source is
reflected to the stored part (with conjugation toggled for a Hermitian
operand); when the operand is lower triangular the region is explicitly
zero-filled instead of read. -/
def packm_struc_p12 (A : PackArgs) (c : SrcView) (p : Buf) : Buf :=
  if diagoffc A + (A.panel_dim : Int) < (A.panel_len : Int) then
    if A.uploc = Uplo.lower ∧ A.strucc = Struc.triangular then
      overlay A.panel_dim_r (p12_i A) (p12_len_max A) (fun _ _ => 0) p
    else
      overlay A.panel_dim_max (p12_i A) (p12_len_max A)
        (packm_cxk_vals (conjc12 A) A.panel_dim (p12_len A) A.kappa (c12view A c)) p
  else p

/-- `packm_struc_cxk` (frame/1m/packm/bli_packm_struc_cxk.c): a general
operand is packed whole by the `cxk` kernel; a structured operand is
first checked for the diagonal-intersection invariant — if the diagonal
falls strictly inside the short edge of the micro-panel the call reports
`BLIS_NOT_YET_IMPLEMENTED` — and is then packed as the three regions
p10, p11, p12. -/
def bli_packm_struc_cxk (A : PackArgs) (c : SrcView) (p : Buf) : Except PackErr Buf :=
  if A.strucc = Struc.general then
    Except.ok (overlay A.panel_dim_max 0 A.panel_len_max
      (packm_cxk_vals A.conjc A.panel_dim A.panel_len A.kappa c) p)
  else if diagIntersectsShortEdge A then
    Except.error PackErr.notYetImplemented
  else
    Except.ok (packm_struc_p12 A c (packm_struc_p11 A c (packm_struc_p10 A c p)))

/-! Concrete instances used to instantiate the theorems below. -/

/-- The constant matrix view `v` everywhere. -/
def constMat (v : Cx) : Nat → Nat → Cx := fun _ _ => v

/-- A descriptor with no flags set, unit carried scalar and non-unit
diagonal. -/
def mkObj (m n : Nat) (u : Uplo) (f : Nat → Nat → Cx) : Obj :=
  { m := m, n := n, uplo := u, diagu := false, trans := false, conj := false
    scalar := 1, elem := f }

/-- A 1-by-1 dense all-ones operand. -/
def obj11 : Obj := mkObj 1 1 Uplo.dense (constMat 1)

/-- A 1-by-1 dense operand holding 5. -/
def obj11five : Obj := mkObj 1 1 Uplo.dense (constMat ⟨5, 0⟩)

/-- A 1-by-1 dense all-zero operand. -/
def obj11zero : Obj := mkObj 1 1 Uplo.dense (constMat 0)

/-- A 1-by-1 lower-stored output holding the purely imaginary value i. -/
def obj11i : Obj := mkObj 1 1 Uplo.lower (constMat ⟨0, 1⟩)

/-- A 2-by-2 dense all-ones operand. -/
def obj22 : Obj := mkObj 2 2 Uplo.dense (constMat 1)

/-- A 2-by-2 lower-stored all-ones output. -/
def obj22lo : Obj := mkObj 2 2 Uplo.lower (constMat 1)

/-- A 4-by-4 lower-triangular all-ones operand. -/
def obj44lo : Obj := mkObj 4 4 Uplo.lower (constMat 1)

/-- A 4-by-4 upper-triangular all-ones operand. -/
def obj44up : Obj := mkObj 4 4 Uplo.upper (constMat 1)

/-- A 4-by-4 dense all-ones operand. -/
def obj44 : Obj := mkObj 4 4 Uplo.dense (constMat 1)

/-- A small blocksize table: MR = NR = 4, MC = NC = 16, KC = 8. -/
def cntx0 : Cntx := ⟨4, 4, 16, 16, 8, 8, 16, 16⟩

/-- Packer arguments whose diagonal offset (3) falls strictly inside the
short edge of the 2-by-4 micro-panel: `panel_len - panel_dim = 2 < 3 < 4 =
panel_len`. -/
def packA4 : PackArgs :=
  { strucc := Struc.triangular, diagu := false, uploc := Uplo.lower
    conjc := false, invdiag := false
    panel_dim := 2, panel_len := 4, panel_dim_max := 2, panel_len_max := 4
    panel_dim_off := 3, panel_len_off := 0, panel_dim_r := 2, kappa := 1 }

/-- Packer arguments for an upper-triangular sub-panel with diagonal
offset 2: the p10 region (two positions) precedes the diagonal block and
is unstored. -/
def packA5 : PackArgs :=
  { strucc := Struc.triangular, diagu := false, uploc := Uplo.upper
    conjc := false, invdiag := false
    panel_dim := 2, panel_len := 5, panel_dim_max := 2, panel_len_max := 6
    panel_dim_off := 2, panel_len_off := 0, panel_dim_r := 2, kappa := 1 }

/-- Packer arguments for a lower-triangular sub-panel with diagonal
offset 0: the p12 region follows the diagonal block and is unstored. -/
def packA5lo : PackArgs :=
  { strucc := Struc.triangular, diagu := false, uploc := Uplo.lower
    conjc := false, invdiag := false
    panel_dim := 2, panel_len := 5, panel_dim_max := 2, panel_len_max := 6
    panel_dim_off := 0, panel_len_off := 0, panel_dim_r := 2, kappa := 1 }

/-- A source view holding 7 everywhere. -/
def src7 : SrcView := fun _ _ => ⟨7, 0⟩

/-- An initial (garbage-filled) packed buffer. -/
def buf9 : Buf := fun _ _ => ⟨9, 9⟩

/-- The packed buffer produced by the structured packer on `packA5`. -/
def packedA5 : Buf :=
  packm_struc_p12 packA5 src7 (packm_struc_p11 packA5 src7 (packm_struc_p10 packA5 src7 buf9))

/-- The packed buffer produced by the structured packer on `packA5lo`. -/
def packedA5lo : Buf :=
  packm_struc_p12 packA5lo src7 (packm_struc_p11 packA5lo src7 (packm_struc_p10 packA5lo src7 buf9))

/-! Helper lemmas. -/

theorem Cx.mul_re (x y : Cx) : (x * y).re = x.re * y.re - x.im * y.im := rfl

theorem Cx.mul_im (x y : Cx) : (x * y).im = x.re * y.im + x.im * y.re := rfl

theorem Cx.zero_re : (0 : Cx).re = 0 := rfl

theorem Cx.zero_im : (0 : Cx).im = 0 := rfl

theorem Cx.zero_mul (x : Cx) : (0 : Cx) * x = 0 := by
  ext <;> simp [Cx.mul_re, Cx.mul_im, Cx.zero_re, Cx.zero_im]

theorem Cx.conj_conj (x : Cx) : x.conj.conj = x := by
  cases x
  simp [Cx.conj]

theorem cnjIf_not_conj (b : Bool) (x : Cx) : cnjIf (!b) x = Cx.conj (cnjIf b x) := by
  cases b <;> simp [cnjIf, Cx.conj_conj]

theorem sumTo_congr {n : Nat} {f g : Nat → Cx} (h : ∀ k, k < n → f k = g k) :
    sumTo n f = sumTo n g := by
  induction n with
  | zero => rfl
  | succ m ih =>
      simp only [sumTo]
      rw [ih (fun k hk => h k (Nat.lt_succ_of_lt hk)), h m (Nat.lt_succ_self m)]

/-- C6 (claim as stated is refuted): in the gemm dispatch the
scalar-attachment step leaves A's carried scalar untouched — with
`alpha = 2` and all carried scalars initially 1, the packed-A operand's
carried scalar after the step is 1, not `alpha`. -/
theorem gemm_scalar_attach_cex :
    ¬ ((gemm_attach_scalars ⟨2, 0⟩ ⟨3, 0⟩ obj22 obj22 obj22).a.scalar
        = ⟨2, 0⟩ * obj22.scalar) := by
  decide

/-- C6 (amended): after the scalar-attachment step of the gemm dispatch,
alpha has been scaled into the carried scalar of the packed-B operand
(not packed-A) and beta into C's carried scalar; the alpha and beta
passed onward to the internal back-end are both the unit scalar, and A
is unchanged. -/
theorem gemm_scalar_attach_amended (alpha beta : Cx) (a b c : Obj) :
    (gemm_attach_scalars alpha beta a b c).b.scalar = alpha * b.scalar ∧
    (gemm_attach_scalars alpha beta a b c).c.scalar = beta * c.scalar ∧
    (gemm_attach_scalars alpha beta a b c).alpha = 1 ∧
    (gemm_attach_scalars alpha beta a b c).beta = 1 ∧
    (gemm_attach_scalars alpha beta a b c).a = a :=
  ⟨rfl, rfl, rfl, rfl, rfl⟩

/-- C7 (claim as stated is refuted): in the right-side trsm control tree
with B lower triangular, the claim requires the m (IC) partition
direction to be backward, but the construction always partitions the IC
loop forward. -/
theorem trsm_r_cntl_ic_dir_cex :
    ¬ ((bli_trsm_r_cntl_init obj44 obj44lo obj44 cntx0).part_ic.direct = Dir.bwd) := by
  decide

/-- C7 (amended): in the left-side trsm control tree the m (IC) and k (PC)
partition directions are forward when A is lower triangular and backward
when A is upper triangular; in the right-side tree the k (PC) and n (JC)
directions are determined by B's triangle (backward when B is lower,
forward when B is upper), while the m (IC) loop always partitions
forward. -/
theorem trsm_cntl_directions_amended (preinv : Bool) (a b c : Obj) (cntx : Cntx) :
    (bli_trsm_l_cntl_init preinv a b c cntx).part_ic.direct
        = (if a.uplo = Uplo.lower then Dir.fwd else Dir.bwd) ∧
    (bli_trsm_l_cntl_init preinv a b c cntx).part_pc.direct
        = (if a.uplo = Uplo.lower then Dir.fwd else Dir.bwd) ∧
    (bli_trsm_l_cntl_init preinv a b c cntx).part_jc.direct = Dir.fwd ∧
    (bli_trsm_r_cntl_init a b c cntx).part_pc.direct
        = (if b.uplo = Uplo.lower then Dir.bwd else Dir.fwd) ∧
    (bli_trsm_r_cntl_init a b c cntx).part_jc.direct
        = (if b.uplo = Uplo.lower then Dir.bwd else Dir.fwd) ∧
    (bli_trsm_r_cntl_init a b c cntx).part_ic.direct = Dir.fwd :=
  ⟨rfl, rfl, rfl, rfl, rfl, rfl⟩

theorem tri_a_local_spec (a : Obj) :
    (trmm_a_local a).trans = false ∧
    (trmm_a_local a).uplo = (if a.trans then toggleUplo a.uplo else a.uplo) ∧
    (trmm_a_local a).ilen = a.ilen ∧
    (trmm_a_local a).iwid = a.iwid ∧
    ∀ i j, interpElem (trmm_a_local a) i j = interpElem a i j := by
  cases htr : a.trans with
  | false =>
      simp [trmm_a_local, htr, Obj.ilen, Obj.iwid]
  | true =>
      simp [trmm_a_local, htr, bli_obj_set_onlytrans_no, bli_obj_induce_trans,
        interpElem, Obj.ilen, Obj.iwid]

/-- C8: in each of the trmm, trmm3 and trsm dispatchers, the
A-normalization step yields a local A alias with the transposition flag
cleared, the storage triangle swapped exactly when the incoming flag was
set, and the same denoted matrix (same logical dimensions and elements);
the caller's object is not modified (the step acts on the local alias
only). -/
theorem l3_tri_a_notrans_normalized (a : Obj) :
    ((trmm_a_local a).trans = false ∧
     (trmm_a_local a).uplo = (if a.trans then toggleUplo a.uplo else a.uplo) ∧
     (trmm_a_local a).ilen = a.ilen ∧
     (trmm_a_local a).iwid = a.iwid ∧
     ∀ i j, interpElem (trmm_a_local a) i j = interpElem a i j) ∧
    ((trmm3_a_local a).trans = false ∧
     (trmm3_a_local a).uplo = (if a.trans then toggleUplo a.uplo else a.uplo) ∧
     (trmm3_a_local a).ilen = a.ilen ∧
     (trmm3_a_local a).iwid = a.iwid ∧
     ∀ i j, interpElem (trmm3_a_local a) i j = interpElem a i j) ∧
    ((trsm_a_local a).trans = false ∧
     (trsm_a_local a).uplo = (if a.trans then toggleUplo a.uplo else a.uplo) ∧
     (trsm_a_local a).ilen = a.ilen ∧
     (trsm_a_local a).iwid = a.iwid ∧
     ∀ i j, interpElem (trsm_a_local a) i j = interpElem a i j) :=
  ⟨tri_a_local_spec a, tri_a_local_spec a, tri_a_local_spec a⟩

theorem gemmt_ex_m (alpha beta : Cx) (a b c : Obj) : (gemmt_ex alpha a b beta c).m = c.m := by
  unfold gemmt_ex bli_l3_return_early_if_trivial
  by_cases h0 : bli_obj_has_zero_dim c
  · simp [h0]
  · by_cases h1 : alpha = 0 ∨ bli_obj_has_zero_dim a ∨ bli_obj_has_zero_dim b
    · simp [h0, h1, bli_scalm]
    · simp [h0, h1, gemmt_core]

theorem gemmt_ex_n (alpha beta : Cx) (a b c : Obj) : (gemmt_ex alpha a b beta c).n = c.n := by
  unfold gemmt_ex bli_l3_return_early_if_trivial
  by_cases h0 : bli_obj_has_zero_dim c
  · simp [h0]
  · by_cases h1 : alpha = 0 ∨ bli_obj_has_zero_dim a ∨ bli_obj_has_zero_dim b
    · simp [h0, h1, bli_scalm]
    · simp [h0, h1, gemmt_core]

theorem setid_zero_diag_im (c : Obj) (i : Nat) (hm : i < c.m) (hn : i < c.n) :
    ((bli_setid 0 c).elem i i).im = 0 := by
  simp [bli_setid, hm, hn, Cx.zero_re]

/-- C1 (claim as stated is refuted): for gemmt with `alpha = 0` and
`beta = 0` on a 2-by-2 lower-stored C of ones, the trivial path scales
only the stored triangle, so the off-triangle entry `C[0][1]` remains 1
and C does not become `beta*C` exactly. -/
theorem gemmt_trivial_offtriangle_cex :
    ¬ ((gemmt_ex 0 obj22 obj22 0 obj22lo).elem 0 1 = (0 : Cx) * obj22lo.elem 0 1) := by
  decide

/-- C1 (amended): for every level-3 entry that takes beta (gemm, gemmt,
hemm, symm, trmm3): if C has a zero dimension the call returns with C
untouched; otherwise, if alpha equals zero or A or B has a zero
dimension, the call scales the stored region of C by beta and returns
without performing the full operation — C becomes `beta*C` exactly on
every stored entry, hence everywhere whenever C is dense (as it is for
gemm, hemm, symm and trmm3); for gemmt only the declared triangle of C
is scaled. -/
theorem l3_trivial_shortcircuit_amended (side : Side) (alpha beta : Cx) (a b c : Obj) :
    (bli_obj_has_zero_dim c = true →
      gemm_ex alpha a b beta c = c ∧
      gemmt_ex alpha a b beta c = c ∧
      hemm_ex side alpha a b beta c = c ∧
      symm_ex side alpha a b beta c = c ∧
      trmm3_ex side alpha a b beta c = c) ∧
    (bli_obj_has_zero_dim c = false →
      (alpha = 0 ∨ bli_obj_has_zero_dim a = true ∨ bli_obj_has_zero_dim b = true) →
      gemm_ex alpha a b beta c = bli_scalm beta c ∧
      gemmt_ex alpha a b beta c = bli_scalm beta c ∧
      hemm_ex side alpha a b beta c = bli_scalm beta c ∧
      symm_ex side alpha a b beta c = bli_scalm beta c ∧
      trmm3_ex side alpha a b beta c = bli_scalm beta c) ∧
    (∀ i j, i < c.m → j < c.n → storedAt c.uplo i j = true →
      (bli_scalm beta c).elem i j = beta * c.elem i j) ∧
    (c.uplo = Uplo.dense → ∀ i j, i < c.m → j < c.n →
      (bli_scalm beta c).elem i j = beta * c.elem i j) := by
  refine ⟨fun h0 => ?_, fun h0 h1 => ?_, fun i j hi hj hs => ?_, fun hd i j hi hj => ?_⟩
  · unfold gemm_ex gemmt_ex hemm_ex symm_ex trmm3_ex bli_l3_return_early_if_trivial
    simp [h0]
  · unfold gemm_ex gemmt_ex hemm_ex symm_ex trmm3_ex bli_l3_return_early_if_trivial
    simp [h0, h1]
  · simp [bli_scalm, hi, hj, hs]
  · simp [bli_scalm, hi, hj, hd, storedAt]

/-- C1 witness: a concrete trivial call (`alpha = 0`, 1-by-1 dense C with
nonzero dimensions) where the amended theorem yields the scaled result
and the elementwise `beta*C` value. -/
theorem l3_trivial_shortcircuit_amended_witness :
    gemm_ex 0 obj11 obj11 ⟨2, 0⟩ obj11 = bli_scalm ⟨2, 0⟩ obj11 ∧
    gemmt_ex 0 obj11 obj11 ⟨2, 0⟩ obj11 = bli_scalm ⟨2, 0⟩ obj11 ∧
    (bli_scalm ⟨2, 0⟩ obj11).elem 0 0 = ⟨2, 0⟩ * obj11.elem 0 0 :=
  ⟨((l3_trivial_shortcircuit_amended Side.left 0 ⟨2, 0⟩ obj11 obj11 obj11).2.1
      (by decide) (Or.inl rfl)).1,
   ((l3_trivial_shortcircuit_amended Side.left 0 ⟨2, 0⟩ obj11 obj11 obj11).2.1
      (by decide) (Or.inl rfl)).2.1,
   (l3_trivial_shortcircuit_amended Side.left 0 ⟨2, 0⟩ obj11 obj11 obj11).2.2.2
      (by decide) 0 0 (by decide) (by decide)⟩

/-- C2: after herk and her2k, the imaginary part of every diagonal element
of C is exactly zero (the dispatchers explicitly zero the diagonal's
imaginary parts via setid before returning). -/
theorem herk_her2k_diag_imag_zero (alpha beta : Cx) (a b c : Obj) (i : Nat)
    (hm : i < c.m) (hn : i < c.n) :
    ((her2k_ex alpha a b beta c).elem i i).im = 0 ∧
    ((herk_ex alpha a beta c).elem i i).im = 0 := by
  constructor
  · show ((bli_setid 0 _).elem i i).im = 0
    apply setid_zero_diag_im
    · rw [gemmt_ex_m, gemmt_ex_m]; exact hm
    · rw [gemmt_ex_n, gemmt_ex_n]; exact hn
  · show ((bli_setid 0 _).elem i i).im = 0
    apply setid_zero_diag_im
    · rw [gemmt_ex_m]; exact hm
    · rw [gemmt_ex_n]; exact hn

/-- C2 witness: herk and her2k on a 1-by-1 lower-stored C holding the
imaginary unit leave a diagonal with exactly zero imaginary part. -/
theorem herk_her2k_diag_imag_zero_witness :
    ((her2k_ex 1 obj11 obj11 1 obj11i).elem 0 0).im = 0 ∧
    ((herk_ex 1 obj11 1 obj11i).elem 0 0).im = 0 :=
  herk_her2k_diag_imag_zero 1 1 obj11 obj11 obj11i 0 (by decide) (by decide)

/-- C9: gemmt leaves every element of C outside the declared stored
triangle bit-identical to its pre-call contents, on the trivial path
(untouched C, or a beta-scale of the stored region only) as well as
through the masked back-end. -/
theorem gemmt_offtriangle_preserved (alpha beta : Cx) (a b c : Obj) (i j : Nat)
    (h : storedAt c.uplo i j = false) :
    (gemmt_ex alpha a b beta c).elem i j = c.elem i j := by
  unfold gemmt_ex bli_l3_return_early_if_trivial
  by_cases h0 : bli_obj_has_zero_dim c
  · simp [h0]
  · by_cases h1 : alpha = 0 ∨ bli_obj_has_zero_dim a ∨ bli_obj_has_zero_dim b
    · simp [h0, h1, bli_scalm, h]
    · simp [h0, h1, gemmt_core, h]

/-- C9 witness: a concrete full (non-trivial) gemmt call on a 2-by-2
lower-stored C preserves the strictly-upper entry `C[0][1]`. -/
theorem gemmt_offtriangle_preserved_witness :
    (gemmt_ex 1 obj22 obj22 1 obj22lo).elem 0 1 = obj22lo.elem 0 1 :=
  gemmt_offtriangle_preserved 1 1 obj22 obj22 obj22lo 0 1 (by decide)

/-- C10: for trmm and trsm, which take no beta argument, the trivial path
supplies an exact zero as beta with B playing the role of C: a
zero-dimension B is returned untouched; otherwise, if alpha is zero or A
has a zero dimension, every in-range element of B is overwritten with an
exact zero rather than left unchanged. -/
theorem trmm_trsm_trivial_zero_beta (core : Side → Cx → Obj → Obj → Obj)
    (side : Side) (alpha : Cx) (a b : Obj) :
    (bli_obj_has_zero_dim b = true →
      trmm_ex side alpha a b = b ∧ trsm_ex core side alpha a b = b) ∧
    (bli_obj_has_zero_dim b = false →
      (alpha = 0 ∨ bli_obj_has_zero_dim a = true) →
      b.uplo = Uplo.dense →
      ∀ i j, i < b.m → j < b.n →
        (trmm_ex side alpha a b).elem i j = 0 ∧
        (trsm_ex core side alpha a b).elem i j = 0) := by
  constructor
  · intro h0
    unfold trmm_ex trsm_ex bli_l3_return_early_if_trivial
    simp [h0]
  · intro h0 h1 hd i j hi hj
    have h1a : alpha = 0 ∨ bli_obj_has_zero_dim a = true ∨ bli_obj_has_zero_dim b = true := by
      rcases h1 with h | h
      · exact Or.inl h
      · exact Or.inr (Or.inl h)
    unfold trmm_ex trsm_ex bli_l3_return_early_if_trivial
    simp [h0, h1, h1a, bli_scalm, hi, hj, hd, storedAt, Cx.zero_mul]

/-- C10 witness: trmm and trsm with `alpha = 0` on a 1-by-1 B holding 5
overwrite B with an exact zero. -/
theorem trmm_trsm_trivial_zero_beta_witness :
    (trmm_ex Side.left 0 obj11 obj11five).elem 0 0 = 0 ∧
    (trsm_ex (fun _ _ _ o => o) Side.left 0 obj11 obj11five).elem 0 0 = 0 :=
  (trmm_trsm_trivial_zero_beta (fun _ _ _ o => o) Side.left 0 obj11 obj11five).2
    (by decide) (Or.inl rfl) rfl 0 0 (by decide) (by decide)

theorem zero_dim_toggle2 (o : Obj) :
    bli_obj_has_zero_dim (bli_obj_toggle_conj (bli_obj_toggle_trans o))
      = bli_obj_has_zero_dim o := rfl

theorem zero_dim_toggle1 (o : Obj) :
    bli_obj_has_zero_dim (bli_obj_toggle_trans o) = bli_obj_has_zero_dim o := rfl

theorem zero_dim_ctransObj (o : Obj) :
    bli_obj_has_zero_dim (ctransObj o) = bli_obj_has_zero_dim o := by
  cases htr : o.trans <;>
    simp [bli_obj_has_zero_dim, ctransObj, Obj.ilen, Obj.iwid, htr, Bool.or_comm]

theorem zero_dim_transObj (o : Obj) :
    bli_obj_has_zero_dim (transObj o) = bli_obj_has_zero_dim o := by
  cases htr : o.trans <;>
    simp [bli_obj_has_zero_dim, transObj, Obj.ilen, Obj.iwid, htr, Bool.or_comm]

theorem interp_ctoggle (o : Obj) : ∀ k j,
    interpElem (bli_obj_toggle_conj (bli_obj_toggle_trans o)) k j
      = interpElem (ctransObj o) k j := by
  intro k j
  cases hc : o.conj <;> cases htr : o.trans <;>
    simp [interpElem, bli_obj_toggle_conj, bli_obj_toggle_trans, ctransObj,
      cnjIf, htr, hc, Cx.conj_conj]

theorem interp_ttoggle (o : Obj) : ∀ k j,
    interpElem (bli_obj_toggle_trans o) k j = interpElem (transObj o) k j := by
  intro k j
  cases hc : o.conj <;> cases htr : o.trans <;>
    simp [interpElem, bli_obj_toggle_trans, transObj, cnjIf, htr, hc]

theorem gemmt_ex_congr_b (alpha beta : Cx) (a b1 b2 c : Obj)
    (hz : bli_obj_has_zero_dim b1 = bli_obj_has_zero_dim b2)
    (he : ∀ k j, interpElem b1 k j = interpElem b2 k j) :
    gemmt_ex alpha a b1 beta c = gemmt_ex alpha a b2 beta c := by
  unfold gemmt_ex bli_l3_return_early_if_trivial
  rw [hz]
  by_cases h0 : bli_obj_has_zero_dim c
  · simp [h0]
  · by_cases h1 : alpha = 0 ∨ bli_obj_has_zero_dim a ∨ bli_obj_has_zero_dim b2
    · simp [h0, h1]
    · simp only [h0, h1, Bool.false_eq_true, if_false, if_neg, not_false_eq_true]
      unfold gemmt_core
      congr 1
      funext i j
      by_cases hij : i < c.m ∧ j < c.n ∧ storedAt c.uplo i j
      · have hs : sumTo a.iwid (fun k => interpElem a i k * interpElem b1 k j)
            = sumTo a.iwid (fun k => interpElem a i k * interpElem b2 k j) :=
          sumTo_congr (fun k _ => by rw [he k j])
        simp only [hij, if_pos, hs]
      · simp only [hij, if_neg, not_false_eq_true]

/-- C3 (claim as stated is refuted): her2k is not extensionally equal to
the two gemmt calls alone — with `alpha = 0`, `beta = 1` and a 1-by-1
lower-stored C holding the imaginary unit, the two gemmt calls leave C's
diagonal imaginary part at 1, while her2k (which additionally zeroes the
diagonal's imaginary parts) returns 0 there. -/
theorem her2k_two_gemmt_cex :
    ¬ (her2k_ex 0 obj11 obj11 1 obj11i = her2k_via_gemmt 0 obj11 obj11 1 obj11i) := by
  intro h
  have h0 : ((her2k_ex 0 obj11 obj11 1 obj11i).elem 0 0).im
      = ((her2k_via_gemmt 0 obj11 obj11 1 obj11i).elem 0 0).im := by rw [h]
  exact absurd h0 (by decide)

/-- C3 (amended): syr2k is exactly the two gemmt calls
`gemmt(alpha,A,B^T,beta,C)` then `gemmt(alpha,B,A^T,1,C)`, and syrk is
exactly the single call `gemmt(alpha,A,A^T,beta,C)`; her2k and herk are
the corresponding gemmt composition (`B^H`/`A^H` operands, second beta
equal to 1) followed by explicitly zeroing the imaginary parts of the
diagonal of C. -/
theorem rank_update_ops_via_gemmt_amended (alpha beta : Cx) (a b c : Obj) :
    her2k_ex alpha a b beta c = bli_setid 0 (her2k_via_gemmt alpha a b beta c) ∧
    syr2k_ex alpha a b beta c = syr2k_via_gemmt alpha a b beta c ∧
    herk_ex alpha a beta c = bli_setid 0 (herk_via_gemmt alpha a beta c) ∧
    syrk_ex alpha a beta c = syrk_via_gemmt alpha a beta c := by
  refine ⟨?_, ?_, ?_, ?_⟩
  · show bli_setid 0
        (gemmt_ex (Cx.conj alpha) b (bli_obj_toggle_conj (bli_obj_toggle_trans a)) 1
          (gemmt_ex alpha a (bli_obj_toggle_conj (bli_obj_toggle_trans b)) beta c))
      = bli_setid 0
        (gemmt_ex (Cx.conj alpha) b (ctransObj a) 1
          (gemmt_ex alpha a (ctransObj b) beta c))
    rw [gemmt_ex_congr_b alpha beta a (bli_obj_toggle_conj (bli_obj_toggle_trans b))
        (ctransObj b) c ((zero_dim_toggle2 b).trans (zero_dim_ctransObj b).symm)
        (interp_ctoggle b),
      gemmt_ex_congr_b (Cx.conj alpha) 1 b (bli_obj_toggle_conj (bli_obj_toggle_trans a))
        (ctransObj a) (gemmt_ex alpha a (ctransObj b) beta c)
        ((zero_dim_toggle2 a).trans (zero_dim_ctransObj a).symm)
        (interp_ctoggle a)]
  · show gemmt_ex alpha b (bli_obj_toggle_trans a) 1
        (gemmt_ex alpha a (bli_obj_toggle_trans b) beta c)
      = gemmt_ex alpha b (transObj a) 1 (gemmt_ex alpha a (transObj b) beta c)
    rw [gemmt_ex_congr_b alpha beta a (bli_obj_toggle_trans b) (transObj b) c
        ((zero_dim_toggle1 b).trans (zero_dim_transObj b).symm) (interp_ttoggle b),
      gemmt_ex_congr_b alpha 1 b (bli_obj_toggle_trans a) (transObj a)
        (gemmt_ex alpha a (transObj b) beta c)
        ((zero_dim_toggle1 a).trans (zero_dim_transObj a).symm) (interp_ttoggle a)]
  · show bli_setid 0
        (gemmt_ex alpha a (bli_obj_toggle_conj (bli_obj_toggle_trans a)) beta c)
      = bli_setid 0 (gemmt_ex alpha a (ctransObj a) beta c)
    rw [gemmt_ex_congr_b alpha beta a (bli_obj_toggle_conj (bli_obj_toggle_trans a))
        (ctransObj a) c ((zero_dim_toggle2 a).trans (zero_dim_ctransObj a).symm)
        (interp_ctoggle a)]
  · show gemmt_ex alpha a (bli_obj_toggle_trans a) beta c
      = gemmt_ex alpha a (transObj a) beta c
    rw [gemmt_ex_congr_b alpha beta a (bli_obj_toggle_trans a) (transObj a) c
        ((zero_dim_toggle1 a).trans (zero_dim_transObj a).symm) (interp_ttoggle a)]

/-- C4: for a non-general sub-panel, the structured packer reports the
not-yet-implemented error exactly when
`diagoffc = panel_dim_off - panel_len_off` falls strictly inside one of
the open intervals `(-panel_dim, 0)` or `(panel_len - panel_dim,
panel_len)` — and then produces no packed panel; outside those intervals
it never raises this error. -/
theorem packm_struc_diag_intersect_error_iff (A : PackArgs) (c : SrcView) (p : Buf)
    (h : A.strucc ≠ Struc.general) :
    (bli_packm_struc_cxk A c p = Except.error PackErr.notYetImplemented) ↔
      ((-(A.panel_dim : Int) < diagoffc A ∧ diagoffc A < 0) ∨
       ((A.panel_len : Int) - (A.panel_dim : Int) < diagoffc A ∧
        diagoffc A < (A.panel_len : Int))) := by
  unfold bli_packm_struc_cxk
  rw [if_neg h]
  by_cases hd : diagIntersectsShortEdge A
  · rw [if_pos hd]
    exact ⟨fun _ => hd, fun _ => rfl⟩
  · rw [if_neg hd]
    exact ⟨fun hh => Except.noConfusion hh, fun hh => absurd hh hd⟩

/-- C4 witness: a 2-by-4 triangular sub-panel with diagonal offset 3
(strictly inside `(panel_len - panel_dim, panel_len) = (2, 4)`) is
rejected with the not-yet-implemented error. -/
theorem packm_struc_diag_intersect_error_iff_witness :
    bli_packm_struc_cxk packA4 src7 buf9 = Except.error PackErr.notYetImplemented :=
  (packm_struc_diag_intersect_error_iff packA4 src7 buf9 (by decide)).mpr (by decide)

theorem overlay_in {rows off len : Nat} (g : Nat → Nat → Cx) (p : Buf) {r l : Nat}
    (hr : r < rows) (hlo : off ≤ l) (hhi : l < off + len) :
    overlay rows off len g p r l = g r (l - off) := by
  simp only [overlay]
  rw [if_pos ⟨hr, hlo, hhi⟩]

theorem overlay_out {rows off len : Nat} (g : Nat → Nat → Cx) (p : Buf) {r l : Nat}
    (h : ¬(r < rows ∧ off ≤ l ∧ l < off + len)) :
    overlay rows off len g p r l = p r l := by
  simp only [overlay]
  rw [if_neg h]

theorem packm_ok_inv (A : PackArgs) (c : SrcView) (p0 P : Buf)
    (hng : A.strucc ≠ Struc.general)
    (hok : bli_packm_struc_cxk A c p0 = Except.ok P) :
    P = packm_struc_p12 A c (packm_struc_p11 A c (packm_struc_p10 A c p0)) := by
  unfold bli_packm_struc_cxk at hok
  rw [if_neg hng] at hok
  by_cases hd : diagIntersectsShortEdge A
  · rw [if_pos hd] at hok
    exact Except.noConfusion hok
  · rw [if_neg hd] at hok
    exact (Except.ok.inj hok).symm

theorem packm_p10_zero_region (A : PackArgs) (c : SrcView) (p0 P : Buf)
    (hok : bli_packm_struc_cxk A c p0 = Except.ok P)
    (hstr : A.strucc = Struc.triangular) (hupl : A.uploc = Uplo.upper)
    (hd : 0 < diagoffc A) :
    ∀ r l, r < A.panel_dim_r → l < p10_len_max A → P r l = 0 := by
  intro r l hr hl
  have hng : A.strucc ≠ Struc.general := by rw [hstr]; exact fun hx => Struc.noConfusion hx
  have hP := packm_ok_inv A c p0 P hng hok
  subst hP
  have h10 : packm_struc_p10 A c p0 r l = 0 := by
    unfold packm_struc_p10
    rw [if_pos hd, if_pos ⟨hupl, hstr⟩, overlay_in (fun _ _ => 0) p0 hr (Nat.zero_le l) (by omega)]
  have h11 : packm_struc_p11 A c (packm_struc_p10 A c p0) r l = 0 := by
    unfold packm_struc_p11
    by_cases hc11 : 0 ≤ diagoffc A ∧ diagoffc A + (A.panel_dim : Int) ≤ (A.panel_len : Int)
    · rw [if_pos hc11]
      by_cases hin : r < A.panel_dim_max ∧ (diagoffc A).toNat ≤ l ∧
          l < (diagoffc A).toNat + p11_len_max A
      · rw [overlay_in _ _ hin.1 hin.2.1 hin.2.2]
        by_cases hfull : p10_len A = A.panel_len
        · have hple : A.panel_len ≤ (diagoffc A).toNat := by
            unfold p10_len at hfull; omega
          have hpd0 : A.panel_dim = 0 := by
            have h2 := hc11.2
            omega
          unfold packm_cxc_diag_vals
          rw [if_neg (by omega)]
        · exfalso
          have h1 : p10_len_max A = p10_len A := by unfold p10_len_max; rw [if_neg hfull]
          have h2 : p10_len A ≤ (diagoffc A).toNat := by unfold p10_len; omega
          omega
      · rw [overlay_out _ _ hin]
        exact h10
    · rw [if_neg hc11]
      exact h10
  unfold packm_struc_p12
  by_cases hc12 : diagoffc A + (A.panel_dim : Int) < (A.panel_len : Int)
  · rw [if_pos hc12]
    have hi12 : p10_len_max A ≤ p12_i A := by
      unfold p10_len_max p10_len p12_i
      split
      · omega
      · omega
    have hout : ∀ rows len g,
        overlay rows (p12_i A) len g (packm_struc_p11 A c (packm_struc_p10 A c p0)) r l
          = packm_struc_p11 A c (packm_struc_p10 A c p0) r l := by
      intro rows len g
      exact overlay_out g _ (by omega)
    rw [if_neg (by rw [hupl]; exact fun hx => Uplo.noConfusion hx.1)]
    rw [hout]
    exact h11
  · rw [if_neg hc12]
    exact h11

theorem packm_p12_zero_region (A : PackArgs) (c : SrcView) (p0 P : Buf)
    (hok : bli_packm_struc_cxk A c p0 = Except.ok P)
    (hstr : A.strucc = Struc.triangular) (hlol : A.uploc = Uplo.lower)
    (hc12 : diagoffc A + (A.panel_dim : Int) < (A.panel_len : Int)) :
    ∀ r l, r < A.panel_dim_r → p12_i A ≤ l → l < p12_i A + p12_len_max A → P r l = 0 := by
  intro r l hr hlo hhi
  have hng : A.strucc ≠ Struc.general := by rw [hstr]; exact fun hx => Struc.noConfusion hx
  have hP := packm_ok_inv A c p0 P hng hok
  subst hP
  unfold packm_struc_p12
  rw [if_pos hc12, if_pos ⟨hlol, hstr⟩, overlay_in (fun _ _ => 0) _ hr hlo hhi]

theorem packm_p12_pad_zero (A : PackArgs) (c : SrcView) (p0 P : Buf)
    (hok : bli_packm_struc_cxk A c p0 = Except.ok P)
    (hng : A.strucc ≠ Struc.general)
    (hc12 : diagoffc A + (A.panel_dim : Int) < (A.panel_len : Int))
    (hle : A.panel_len ≤ A.panel_len_max) :
    ∀ r l, r < A.panel_dim_max → r < A.panel_dim_r → A.panel_len ≤ l →
      l < A.panel_len_max → P r l = 0 := by
  intro r l hr hrr hlo hhi
  have hP := packm_ok_inv A c p0 P hng hok
  subst hP
  have hi12 : p12_i A ≤ A.panel_len := by unfold p12_i; omega
  have hilen : p12_i A + p12_len A = A.panel_len := by unfold p12_len; omega
  have hwin : p12_i A + p12_len_max A = A.panel_len_max := by
    unfold p12_len_max p12_len; omega
  unfold packm_struc_p12
  rw [if_pos hc12]
  by_cases hzb : A.uploc = Uplo.lower ∧ A.strucc = Struc.triangular
  · rw [if_pos hzb, overlay_in (fun _ _ => 0) _ hrr (by omega) (by omega)]
  · rw [if_neg hzb, overlay_in _ _ hr (by omega) (by omega)]
    unfold packm_cxk_vals
    rw [if_neg (by omega)]

/-- C5: when a triangular operand is packed while referencing its unstored
side, the structured packer writes bit-exact zeros into the packed
buffer instead of reading source memory: the p10 region is zero when the
structure is triangular and upper-stored, the p12 region is zero when
the structure is triangular and lower-stored, and whenever the p12
region (the final region) is packed, the buffer is extended with exact
zero padding out to `panel_len_max`. -/
theorem packm_struc_zero_fill (A : PackArgs) (c : SrcView) (p0 P : Buf)
    (hok : bli_packm_struc_cxk A c p0 = Except.ok P) :
    (A.strucc = Struc.triangular → A.uploc = Uplo.upper → 0 < diagoffc A →
      ∀ r l, r < A.panel_dim_r → l < p10_len_max A → P r l = 0) ∧
    (A.strucc = Struc.triangular → A.uploc = Uplo.lower →
      diagoffc A + (A.panel_dim : Int) < (A.panel_len : Int) →
      ∀ r l, r < A.panel_dim_r → p12_i A ≤ l → l < p12_i A + p12_len_max A →
        P r l = 0) ∧
    (A.strucc ≠ Struc.general →
      diagoffc A + (A.panel_dim : Int) < (A.panel_len : Int) →
      A.panel_len ≤ A.panel_len_max →
      ∀ r l, r < A.panel_dim_max → r < A.panel_dim_r → A.panel_len ≤ l →
        l < A.panel_len_max → P r l = 0) :=
  ⟨fun h1 h2 h3 => packm_p10_zero_region A c p0 P hok h1 h2 h3,
   fun h1 h2 h3 => packm_p12_zero_region A c p0 P hok h1 h2 h3,
   fun h1 h2 h3 => packm_p12_pad_zero A c p0 P hok h1 h2 h3⟩

theorem packA5_ok : bli_packm_struc_cxk packA5 src7 buf9 = Except.ok packedA5 := by
  unfold bli_packm_struc_cxk
  rw [if_neg (by decide), if_neg (by decide)]
  rfl

theorem packA5lo_ok : bli_packm_struc_cxk packA5lo src7 buf9 = Except.ok packedA5lo := by
  unfold bli_packm_struc_cxk
  rw [if_neg (by decide), if_neg (by decide)]
  rfl

/-- C5 witness: on the concrete upper-triangular panel the p10 positions
and the final padding positions of the packed buffer are exact zeros,
and on the concrete lower-triangular panel the p12 positions are exact
zeros. -/
theorem packm_struc_zero_fill_witness :
    packedA5 0 0 = 0 ∧ packedA5 0 1 = 0 ∧ packedA5lo 0 2 = 0 ∧ packedA5 0 5 = 0 :=
  ⟨(packm_struc_zero_fill packA5 src7 buf9 packedA5 packA5_ok).1 rfl rfl (by decide)
      0 0 (by decide) (by decide),
   (packm_struc_zero_fill packA5 src7 buf9 packedA5 packA5_ok).1 rfl rfl (by decide)
      0 1 (by decide) (by decide),
   (packm_struc_zero_fill packA5lo src7 buf9 packedA5lo packA5lo_ok).2.1 rfl rfl (by decide)
      0 2 (by decide) (by decide) (by decide),
   (packm_struc_zero_fill packA5 src7 buf9 packedA5 packA5_ok).2.2 (by decide) (by decide)
      (by decide) 0 5 (by decide) (by decide) (by decide) (by decide)⟩

end BlisSpec
